import Mathlib

/-!
# Verification of the Tetris rules engine

A shallow embedding of the falling-block puzzle engine found in
`src/components/TetrisGame.tsx` and its queue-based variant
`src/unnamed/part_001`, with theorems settling the specification's claims.

Conventions of the embedding:
* a grid cell is `Option PieceType` (`none` = the source's `null`);
* the grid is a list of rows, each row a list of cells;
* piece anchors are integer coordinates (they may leave `[0, COLS)` even
  though every *occupied* cell stays in bounds);
* the ambient random draw (`getRandomPiece`) is injected as an explicit
  argument wherever the source calls it, so every operation is a pure
  function of the previous state and the injected draw(s).
-/

set_option autoImplicit false

namespace Tetris

/-- The seven tetromino kinds, from `src/types` / `src/constants.ts`. -/
inductive PieceType : Type
  | I | J | L | O | S | T | Z
deriving DecidableEq

/-- A field cell: empty (`null` in the source) or stamped with a kind. -/
abbrev Cell := Option PieceType

/-- A row of the field. -/
abbrev Row := List Cell

/-- The field: a list of rows (row 0 at the top). -/
abbrev Grid := List Row

/-- `COLS = 10` from `src/constants.ts`. -/
def COLS : Nat := 10

/-- The rotation-0 occupancy matrices `PIECES` from `src/constants.ts`. -/
def PIECES : PieceType → List (List Nat)
  | .I => [[0, 0, 0, 0],
           [1, 1, 1, 1],
           [0, 0, 0, 0],
           [0, 0, 0, 0]]
  | .J => [[1, 0, 0],
           [1, 1, 1],
           [0, 0, 0]]
  | .L => [[0, 0, 1],
           [1, 1, 1],
           [0, 0, 0]]
  | .O => [[1, 1],
           [1, 1]]
  | .S => [[0, 1, 1],
           [1, 1, 0],
           [0, 0, 0]]
  | .T => [[0, 1, 0],
           [1, 1, 1],
           [0, 0, 0]]
  | .Z => [[1, 1, 0],
           [0, 1, 1],
           [0, 0, 0]]

/-- An anchor: the source's `position` record `{x, y}` (top-left of the
shape matrix), integer-valued. -/
structure Pos where
  x : Int
  y : Int
deriving DecidableEq

/-- The source's `Piece`: kind tag, current shape matrix, anchor. -/
structure Piece where
  type : PieceType
  shape : List (List Nat)
  position : Pos
deriving DecidableEq

/-- Per-kind tally of locked pieces (`pieceStats` in the source). -/
structure PieceStats where
  i : Nat
  j : Nat
  l : Nat
  o : Nat
  s : Nat
  t : Nat
  z : Nat
deriving DecidableEq

/-- Read the tally for one kind. -/
def PieceStats.get (st : PieceStats) : PieceType → Nat
  | .I => st.i
  | .J => st.j
  | .L => st.l
  | .O => st.o
  | .S => st.s
  | .T => st.t
  | .Z => st.z

/-- `newPieceStats[type] = (newPieceStats[type] || 0) + 1` from the source. -/
def PieceStats.inc (st : PieceStats) : PieceType → PieceStats
  | .I => { st with i := st.i + 1 }
  | .J => { st with j := st.j + 1 }
  | .L => { st with l := st.l + 1 }
  | .O => { st with o := st.o + 1 }
  | .S => { st with s := st.s + 1 }
  | .T => { st with t := st.t + 1 }
  | .Z => { st with z := st.z + 1 }

/-- The theme selector (`'electronika' | 'technicolor'`). -/
inductive Theme : Type
  | electronika | technicolor
deriving DecidableEq

/-- The aggregate `GameState` of the queue variant (`src/unnamed/part_001`):
grid, optional active piece, 3-lookahead queue, counters and flags. -/
structure GameState where
  grid : Grid
  activePiece : Option Piece
  nextPieces : List PieceType
  score : Nat
  level : Nat
  lines : Nat
  isPaused : Bool
  isGameOver : Bool
  theme : Theme
  pieceStats : PieceStats
deriving DecidableEq

/-- `getRows` from `src/unnamed/part_001`: 24 rows for the desktop
electronika theme, otherwise 20. -/
def getRows (theme : Theme) (isMobile : Bool) : Nat :=
  if theme = Theme.electronika ∧ isMobile = false then 24 else 20

/-- A row of `COLS` nulls (`Array(COLS).fill(null)`). -/
def emptyRow : Row := List.replicate COLS none

/-- `createEmptyGrid` from the source. -/
def createEmptyGrid (theme : Theme) (isMobile : Bool) : Grid :=
  List.replicate (getRows theme isMobile) emptyRow

/-- `getInitialState` from `src/unnamed/part_001`, with the three random
draws injected as `a b c`. -/
def initialState (theme : Theme) (isMobile : Bool)
    (a b c : PieceType) : GameState where
  grid := createEmptyGrid theme isMobile
  activePiece := none
  nextPieces := [a, b, c]
  score := 0
  level := 1
  lines := 0
  isPaused := false
  isGameOver := false
  theme := theme
  pieceStats := ⟨0, 0, 0, 0, 0, 0, 0⟩

/-! ## Collision detector (`checkCollision`) -/

/-- The source's nested `for` loops visit every index pair `(y, x)` with
`y < shape.length`, `x < shape[y].length` and keep those with
`shape[y][x] !== 0`. -/
def occPairs (shape : List (List Nat)) : List (Nat × Nat) :=
  (List.range shape.length).flatMap fun y =>
    (List.range (shape.getD y []).length).filterMap fun x =>
      if (shape.getD y []).getD x 0 ≠ 0 then some (y, x) else none

/-- `shape[y][x]` exists and is non-zero. -/
def OccAt (shape : List (List Nat)) (y x : Nat) : Prop :=
  y < shape.length ∧ x < (shape.getD y []).length ∧
    (shape.getD y []).getD x 0 ≠ 0

instance (shape : List (List Nat)) (y x : Nat) :
    Decidable (OccAt shape y x) := by
  unfold OccAt; infer_instance

/-- The cell read `grid[r][c]` when both indices are in range. -/
def cellAt (g : Grid) (r c : Nat) : Cell := (g.getD r []).getD c none

/-- The source's occupancy test `grid[newY][newX] !== null`.  When the row
is shorter than `newX` the JavaScript read yields `undefined`, which is
`!== null`, hence `true` here. -/
def cellBlocked (g : Grid) (r c : Nat) : Bool :=
  match (g.getD r []).get? c with
  | none => true
  | some cell => cell.isSome

/-- The per-cell test inside `checkCollision`'s loops. -/
def collTest (g : Grid) (pos : Pos) (dx dy : Int) (yx : Nat × Nat) : Bool :=
  let newX : Int := pos.x + yx.2 + dx
  let newY : Int := pos.y + yx.1 + dy
  decide (newX < 0) || decide ((COLS : Int) ≤ newX) ||
    decide ((g.length : Int) ≤ newY) ||
    (decide (0 ≤ newY) && cellBlocked g newY.toNat newX.toNat)

/-- `checkCollision(piece, grid, moveX, moveY)` from the source: true iff
some occupied shape cell, shifted by the anchor and the offset, leaves the
columns, passes the floor, or lands on a non-null field cell (negative
rows exempt from the occupancy check). -/
def checkCollision (p : Piece) (g : Grid) (dx dy : Int) : Bool :=
  (occPairs p.shape).any (collTest g p.position dx dy)

/-! ## Rotation (`handleRotate`'s `rotateShape`) -/

/-- `shape[0].map((_, i) => shape.map(col => col[i]).reverse())`: row `i`
of the result is the reversed `i`-th column. -/
def rotateShape (shape : List (List Nat)) : List (List Nat) :=
  (List.range (shape.headD []).length).map fun i =>
    (shape.map fun row => row.getD i 0).reverse

/-! ## Stamping a piece into the grid

The source copies the grid and then, for every non-zero shape cell,
writes the piece's kind at `grid[position.y + y][position.x + x]`,
guarded by `gridY >= 0 && gridY < rows && gridX >= 0 && gridX < COLS`
(the defensive clip). -/

/-- One guarded write `newGrid[gy][gx] = type`. -/
def writeCell (ty : PieceType) (g : Grid) (gy gx : Int) : Grid :=
  if 0 ≤ gy ∧ gy < (g.length : Int) ∧ 0 ≤ gx ∧ gx < (COLS : Int) then
    g.set gy.toNat ((g.getD gy.toNat []).set gx.toNat (some ty))
  else g

/-- Perform the guarded writes for a list of absolute coordinates. -/
def stampCells (ty : PieceType) (g : Grid) : List (Int × Int) → Grid
  | [] => g
  | (gy, gx) :: rest => stampCells ty (writeCell ty g gy gx) rest

/-- Stamp every occupied cell of `p` into `g` at `p`'s current anchor
(the `shape.forEach` loop shared by `lockPiece` and `hardDrop`). -/
def stamp (p : Piece) (g : Grid) : Grid :=
  stampCells p.type g
    ((occPairs p.shape).map fun yx =>
      (p.position.y + yx.1, p.position.x + yx.2))

/-! ## Line clearing -/

/-- `row.every(cell => cell !== null)`. -/
def isFull (row : Row) : Bool := row.all Option.isSome

/-- The source's `while (filteredGrid.length < rows) filteredGrid.unshift(...)`
loop, rendered with explicit fuel (one unshift per iteration). -/
def padLoop (rows : Nat) : Nat → Grid → Grid
  | 0, g => g
  | fuel + 1, g => if g.length < rows then padLoop rows fuel (emptyRow :: g) else g

/-- Remove full rows and pad the top back to `rows` rows
(`newGrid.filter(...)` followed by the `while` loop). -/
def clearFullRows (rows : Nat) (g : Grid) : Grid :=
  padLoop rows rows (g.filter fun row => !isFull row)

/-- The source's `linesCleared` counter, incremented once per full row
during the filter pass. -/
def countFull (g : Grid) : Nat := g.countP fun row => isFull row

/-- `basePoints = [0, 40, 100, 300, 1200]`. -/
def basePoints : List Nat := [0, 40, 100, 300, 1200]

/-! ## Spawning -/

/-- The spawn anchor used everywhere:
`x = Math.floor(COLS / 2) - Math.floor(shape[0].length / 2), y = 0`. -/
def spawnPos (shape : List (List Nat)) : Pos :=
  ⟨(COLS : Int) / 2 - ((shape.headD []).length : Int) / 2, 0⟩

/-- Build the piece spawned for kind `ty` (`nextActivePiece`). -/
def mkSpawn (ty : PieceType) : Piece :=
  ⟨ty, PIECES ty, spawnPos (PIECES ty)⟩

/-! ## `lockPiece` (gravity / soft-drop landing path)

From `src/unnamed/part_001` lines 269–344: stamp, update the tally, clear
lines, score, then atomically spawn from the queue head.  The random draw
pushed to the queue tail is the injected argument `drawn`.  Note that the
game-over branch of the source returns the state *without* the updated
`pieceStats`. -/

def lockPiece (drawn : PieceType) (s : GameState) : GameState :=
  match s.activePiece with
  | none => s
  | some p =>
    let rows := s.grid.length
    let newPieceStats := s.pieceStats.inc p.type
    let newGrid := stamp p s.grid
    let filteredGrid := clearFullRows rows newGrid
    let linesCleared := countFull newGrid
    let newLines := s.lines + linesCleared
    let newLevel := newLines / 10 + 1
    let newScore := s.score + basePoints.getD linesCleared 0 * (s.level + 1)
    let nextType := s.nextPieces.headD PieceType.I
    let nextActivePiece := mkSpawn nextType
    let newNextPieces := s.nextPieces.tail ++ [drawn]
    if checkCollision nextActivePiece filteredGrid 0 0 then
      { s with
        grid := filteredGrid
        activePiece := none
        isGameOver := true
        score := newScore
        lines := newLines
        level := newLevel
        nextPieces := newNextPieces }
    else
      { s with
        grid := filteredGrid
        activePiece := some nextActivePiece
        nextPieces := newNextPieces
        score := newScore
        lines := newLines
        level := newLevel
        pieceStats := newPieceStats }

/-! ## `spawnPiece` (initial spawn) -/

/-- `spawnPiece` from the source: spawn the queue head onto the current
grid, or set game-over if it collides immediately. -/
def spawnPiece (drawn : PieceType) (s : GameState) : GameState :=
  let ty := s.nextPieces.headD PieceType.I
  let newPiece := mkSpawn ty
  if checkCollision newPiece s.grid 0 0 then
    { s with isGameOver := true }
  else
    { s with
      activePiece := some newPiece
      nextPieces := s.nextPieces.tail ++ [drawn] }

/-! ## Gravity / soft drop (`drop`) -/

/-- `drop` from the source (shared by the gravity tick and soft drop):
fall one row if possible, otherwise delegate to `lockPiece`.  The
`isProcessingRef` debounce is host-side mutable reference state outside
the game state and is not modelled. -/
def drop (drawn : PieceType) (s : GameState) : GameState :=
  match s.activePiece with
  | none => s
  | some p =>
    if s.isPaused || s.isGameOver then s
    else if !checkCollision p s.grid 0 1 then
      let moved : Piece := { p with position := { p.position with y := p.position.y + 1 } }
      { s with activePiece := some moved }
    else lockPiece drawn s

/-! ## `hardDrop`

From `src/unnamed/part_001` lines 383–460.  The source's `while` loop
advances `finalY` until `checkCollision(piece, grid, 0, finalY -
position.y + 1)` holds, i.e. it probes offsets `1, 2, …` and stops on the
first colliding one; `dropSteps` renders that loop with the offset as the
accumulator and explicit fuel (the loop terminates because a non-empty
shape eventually passes the floor). -/

def dropSteps (p : Piece) (g : Grid) : Nat → Nat → Nat
  | d, 0 => d
  | d, fuel + 1 =>
    if checkCollision p g 0 ((d : Int) + 1) then d
    else dropSteps p g (d + 1) fuel

/-- The landing offset `finalY - position.y` computed by `hardDrop`'s
`while` loop; the fuel `g.length + 1` is enough for any piece whose shape
has an occupied cell and whose anchor row is non-negative. -/
def hardDropOffset (p : Piece) (g : Grid) : Nat :=
  dropSteps p g 0 (g.length + 1)

/-- `hardDrop` from the source: fall to the landing offset, stamp, update
the tally, clear lines, score, and spawn — one atomic transition.  Unlike
`lockPiece`, the game-over branch keeps the queue unchanged and the tally
update is applied in every branch. -/
def hardDrop (drawn : PieceType) (s : GameState) : GameState :=
  match s.activePiece with
  | none => s
  | some p =>
    if s.isPaused || s.isGameOver then s
    else
      let d := hardDropOffset p s.grid
      let finalPiece : Piece :=
        { p with position := { p.position with y := p.position.y + d } }
      let newPieceStats := s.pieceStats.inc finalPiece.type
      let rows := s.grid.length
      let newGrid := stamp finalPiece s.grid
      let filteredGrid := clearFullRows rows newGrid
      let linesCleared := countFull newGrid
      let newLines := s.lines + linesCleared
      let newLevel := newLines / 10 + 1
      let newScore := s.score + basePoints.getD linesCleared 0 * (s.level + 1)
      let nextType := s.nextPieces.headD PieceType.I
      let nextActivePiece := mkSpawn nextType
      let newNextPieces := s.nextPieces.tail ++ [drawn]
      let gameOver := checkCollision nextActivePiece filteredGrid 0 0
      { s with
        grid := filteredGrid
        activePiece := if gameOver then none else some nextActivePiece
        nextPieces := if gameOver then s.nextPieces else newNextPieces
        score := newScore
        lines := newLines
        level := newLevel
        isGameOver := gameOver || s.isGameOver
        pieceStats := newPieceStats }

/-! ## Rotation and horizontal movement -/

/-- `handleRotate`: rotate clockwise at the unchanged anchor, rejected
outright when the rotated shape collides. -/
def handleRotate (s : GameState) : GameState :=
  match s.activePiece with
  | none => s
  | some p =>
    if s.isPaused || s.isGameOver then s
    else
      let rotatedPiece : Piece := { p with shape := rotateShape p.shape }
      if !checkCollision rotatedPiece s.grid 0 0 then
        { s with activePiece := some rotatedPiece }
      else s

/-- `move(dir)`: shift the anchor column by `dir` unless that collides. -/
def move (dir : Int) (s : GameState) : GameState :=
  match s.activePiece with
  | none => s
  | some p =>
    if s.isPaused || s.isGameOver then s
    else if !checkCollision p s.grid dir 0 then
      let moved : Piece := { p with position := { p.position with x := p.position.x + dir } }
      { s with activePiece := some moved }
    else s

/-! ## Restart, pause and the keyboard surface -/

/-- `restartGame`: replace the whole state with a fresh initial one (the
theme read from storage and the three queue draws are injected). -/
def restartGame (theme : Theme) (isMobile : Bool) (a b c : PieceType)
    (_s : GameState) : GameState :=
  initialState theme isMobile a b c

/-- `'p'`: toggle the pause flag. -/
def togglePause (s : GameState) : GameState :=
  { s with isPaused := !s.isPaused }

/-- The keys `handleKeyDown` dispatches on (grouped by action). -/
inductive Key : Type
  | left | right | down | rotateCW | space | keyP | keyR
deriving DecidableEq

/-- `handleKeyDown` from the source: *every* key is dropped while
`isGameOver` (the guard precedes the `switch`, so `'p'` and `'r'` are
ignored there too); otherwise dispatch to the action.  The injected
arguments stand for the random draws and the storage reads a restart or
spawn would perform. -/
def handleKey (theme : Theme) (isMobile : Bool) (drawn : PieceType)
    (a b c : PieceType) (k : Key) (s : GameState) : GameState :=
  if s.isGameOver then s
  else
    match k with
    | .left => move (-1) s
    | .right => move 1 s
    | .down => drop drawn s
    | .rotateCW => handleRotate s
    | .space => hardDrop drawn s
    | .keyP => togglePause s
    | .keyR => restartGame theme isMobile a b c s

/-! ## Basic lemmas -/

/-- Membership in `occPairs` is exactly the per-cell occupancy predicate
`OccAt`. -/
theorem mem_occPairs {shape : List (List Nat)} {y x : Nat} :
    (y, x) ∈ occPairs shape ↔ OccAt shape y x := by
  unfold occPairs OccAt
  simp only [List.mem_flatMap, List.mem_filterMap, List.mem_range]
  constructor
  · rintro ⟨a, ha, b, hb, hif⟩
    split at hif
    next hv =>
      obtain ⟨rfl, rfl⟩ : a = y ∧ b = x := by
        constructor <;> [exact congrArg Prod.fst (Option.some.inj hif);
                        exact congrArg Prod.snd (Option.some.inj hif)]
      exact ⟨ha, hb, hv⟩
    next => exact absurd hif (by simp)
  · rintro ⟨hy, hx, hv⟩
    exact ⟨y, hy, x, hx, if_pos hv⟩

/-- A non-null in-range cell read makes `cellBlocked` true. -/
theorem cellBlocked_of_cellAt {g : Grid} {r c : Nat}
    (h : cellAt g r c ≠ none) : cellBlocked g r c = true := by
  unfold cellAt at h
  unfold cellBlocked
  rw [List.getD_eq_getD_get?] at h
  cases hq : (g.getD r []).get? c with
  | none => simp
  | some cell =>
    rw [hq] at h
    simp only [Option.getD_some] at h
    simpa [Option.isSome_iff_ne_none] using h

/-- When `cellBlocked` holds inside the grid bounds (all rows having
width `COLS`), the cell really is non-empty. -/
theorem cellAt_of_cellBlocked {g : Grid} {r c : Nat}
    (hw : ∀ row ∈ g, row.length = COLS)
    (hr : r < g.length) (hc : c < COLS)
    (h : cellBlocked g r c = true) : cellAt g r c ≠ none := by
  unfold cellBlocked at h
  unfold cellAt
  have hrow : g.getD r [] = g[r] := List.getD_eq_getElem g [] hr
  have hlen : (g.getD r []).length = COLS := by
    rw [hrow]; exact hw _ (g.getElem_mem hr)
  have hc' : c < (g.getD r []).length := by rw [hlen]; exact hc
  rw [List.get?_eq_get hc'] at h
  rw [List.getD_eq_getElem _ _ hc']
  simp only [List.get_eq_getElem] at h
  simpa [Option.isSome_iff_ne_none] using h

/-- Conversely, a blocked read always came from a non-empty or missing
cell; in particular `cellBlocked = false` forces the cell to be empty. -/
theorem cellAt_eq_none_of_not_blocked {g : Grid} {r c : Nat}
    (h : cellBlocked g r c = false) : cellAt g r c = none := by
  unfold cellBlocked at h
  unfold cellAt
  rw [List.getD_eq_getD_get?]
  cases hq : (g.getD r []).get? c with
  | none => simp
  | some cell =>
    rw [hq] at h
    simp only [Option.getD_some]
    simpa [Option.isSome_iff_ne_none] using h

/-! ## C9 — rotating four times is the identity on the catalog -/

/-- C9: For every piece kind in the catalog, applying the clockwise
rotation (transpose the occupancy matrix, then reverse each row, as
implemented by `rotateShape`) four times yields the original rotation-0
matrix. -/
theorem rotateShape_four_eq_self (t : PieceType) :
    rotateShape (rotateShape (rotateShape (rotateShape (PIECES t)))) =
      PIECES t := by
  cases t <;> rfl

/-! ## C1 — characterization of the collision predicate -/

/-- C1: For every piece, field grid whose rows have width `COLS`, and
offset `(dx, dy)`, `checkCollision` returns true iff some occupied cell
of the piece's matrix, after adding the anchor and the offset, has a
column outside `[0, COLS)`, or a row `≥` the grid height, or a
non-negative row whose field cell is non-empty; cells whose resulting
row is negative are exempt from the occupancy check. -/
theorem checkCollision_iff (p : Piece) (g : Grid) (dx dy : Int)
    (hw : ∀ row ∈ g, row.length = COLS) :
    checkCollision p g dx dy = true ↔
      ∃ y x, OccAt p.shape y x ∧
        (p.position.x + x + dx < 0 ∨
         (COLS : Int) ≤ p.position.x + x + dx ∨
         (g.length : Int) ≤ p.position.y + y + dy ∨
         (0 ≤ p.position.y + y + dy ∧
          cellAt g (p.position.y + y + dy).toNat
            (p.position.x + x + dx).toNat ≠ none)) := by
  unfold checkCollision
  rw [List.any_eq_true]
  constructor
  · rintro ⟨⟨y, x⟩, hmem, htest⟩
    refine ⟨y, x, mem_occPairs.1 hmem, ?_⟩
    unfold collTest at htest
    simp only [Bool.or_eq_true, Bool.and_eq_true, decide_eq_true_eq] at htest
    rcases htest with ((h | h) | h) | ⟨h0, hb⟩
    · exact Or.inl h
    · exact Or.inr (Or.inl h)
    · exact Or.inr (Or.inr (Or.inl h))
    · -- the occupancy branch: move from `cellBlocked` to `cellAt`
      by_cases hx1 : p.position.x + x + dx < 0
      · exact Or.inl hx1
      by_cases hx2 : (COLS : Int) ≤ p.position.x + x + dx
      · exact Or.inr (Or.inl hx2)
      by_cases hy2 : (g.length : Int) ≤ p.position.y + y + dy
      · exact Or.inr (Or.inr (Or.inl hy2))
      refine Or.inr (Or.inr (Or.inr ⟨h0, ?_⟩))
      refine cellAt_of_cellBlocked hw ?_ ?_ hb
      · have h1 : p.position.y + y + dy < (g.length : Int) := lt_of_not_le hy2
        omega
      · have hx0 : 0 ≤ p.position.x + x + dx := le_of_not_lt hx1
        have h2 : p.position.x + x + dx < (COLS : Int) := lt_of_not_le hx2
        omega
  · rintro ⟨y, x, hocc, hcond⟩
    refine ⟨(y, x), mem_occPairs.2 hocc, ?_⟩
    unfold collTest
    simp only [Bool.or_eq_true, Bool.and_eq_true, decide_eq_true_eq]
    rcases hcond with h | h | h | ⟨h0, hne⟩
    · exact Or.inl (Or.inl (Or.inl h))
    · exact Or.inl (Or.inl (Or.inr h))
    · exact Or.inl (Or.inr h)
    · exact Or.inr ⟨h0, cellBlocked_of_cellAt hne⟩

/-- Witness for C1: the `O` piece at anchor `(-1, 0)` on an empty 4-row
field collides (its leftmost occupied column is `-1`). -/
theorem checkCollision_iff_witness :
    (∀ row ∈ List.replicate 4 emptyRow, row.length = COLS) ∧
      (checkCollision ⟨PieceType.O, PIECES PieceType.O, ⟨-1, 0⟩⟩
          (List.replicate 4 emptyRow) 0 0 = true ↔
        ∃ y x, OccAt (PIECES PieceType.O) y x ∧
          ((-1 : Int) + x + 0 < 0 ∨
           (COLS : Int) ≤ -1 + x + 0 ∨
           ((List.replicate 4 emptyRow : Grid).length : Int) ≤ 0 + y + 0 ∨
           (0 ≤ (0 : Int) + y + 0 ∧
            cellAt (List.replicate 4 emptyRow) ((0 : Int) + y + 0).toNat
              ((-1 : Int) + x + 0).toNat ≠ none))) :=
  ⟨by decide,
   checkCollision_iff ⟨PieceType.O, PIECES PieceType.O, ⟨-1, 0⟩⟩
     (List.replicate 4 emptyRow) 0 0 (by decide)⟩

/-! ## Lemmas about stamping and line clearing -/

/-- A guarded write never changes the number of rows. -/
theorem length_writeCell (ty : PieceType) (g : Grid) (gy gx : Int) :
    (writeCell ty g gy gx).length = g.length := by
  unfold writeCell
  split
  · exact List.length_set ..
  · rfl

/-- Stamping a list of cells never changes the number of rows. -/
theorem length_stampCells (ty : PieceType) (g : Grid)
    (coords : List (Int × Int)) :
    (stampCells ty g coords).length = g.length := by
  induction coords generalizing g with
  | nil => rfl
  | cons hd tl ih =>
    obtain ⟨gy, gx⟩ := hd
    rw [stampCells, ih, length_writeCell]

/-- Stamping a piece never changes the number of rows. -/
theorem length_stamp (p : Piece) (g : Grid) :
    (stamp p g).length = g.length :=
  length_stampCells ..

/-- The padding `while` loop prepends exactly the missing number of
empty rows, given enough fuel. -/
theorem padLoop_eq (rows : Nat) :
    ∀ fuel g, rows ≤ g.length + fuel →
      padLoop rows fuel g = List.replicate (rows - g.length) emptyRow ++ g := by
  intro fuel
  induction fuel with
  | zero =>
    intro g hg
    have h0 : rows - g.length = 0 := by omega
    rw [padLoop, h0, List.replicate_zero, List.nil_append]
  | succ fuel ih =>
    intro g hg
    rw [padLoop]
    split
    next hlt =>
      rw [ih (emptyRow :: g) (by simp; omega)]
      have h2 : rows - g.length = (rows - (emptyRow :: g).length) + 1 := by
        simp; omega
      rw [h2, List.replicate_succ', List.append_assoc,
        List.singleton_append]
    next hge =>
      have h0 : rows - g.length = 0 := by omega
      rw [h0, List.replicate_zero, List.nil_append]

/-- The number of rows dropped by the filter pass equals the number of
full rows. -/
theorem length_sub_filter_not_full (g : Grid) :
    g.length - (g.filter fun row => !isFull row).length = countFull g := by
  unfold countFull
  induction g with
  | nil => rfl
  | cons hd tl ih =>
    have hle := List.length_filter_le (fun row => !isFull row) tl
    by_cases hf : isFull hd
    · simp [List.filter_cons, hf, List.countP_cons, ← ih]
      omega
    · simp [List.filter_cons, hf, List.countP_cons, ← ih]

/-- Full rows are a subset of all rows, so the filter never keeps more
rows than there were. -/
theorem filter_not_full_le (g : Grid) :
    (g.filter fun row => !isFull row).length ≤ g.length :=
  List.length_filter_le _ g

/-- `clearFullRows` removes exactly the full rows and prepends that many
empty rows. -/
theorem clearFullRows_eq (g : Grid) :
    clearFullRows g.length g =
      List.replicate (countFull g) emptyRow ++
        (g.filter fun row => !isFull row) := by
  unfold clearFullRows
  rw [padLoop_eq g.length g.length _ (by have := filter_not_full_le g; omega)]
  rw [length_sub_filter_not_full]

/-- `clearFullRows` preserves the row count. -/
theorem length_clearFullRows (g : Grid) :
    (clearFullRows g.length g).length = g.length := by
  rw [clearFullRows_eq, List.length_append, List.length_replicate,
    ← length_sub_filter_not_full]
  have := filter_not_full_le g
  omega

/-! ## C3 — locking removes exactly the full rows -/

/-- The `finalPiece` of the source's `hardDrop`: the active piece moved
down by the landing offset found by the `while` loop. -/
def finalPiece (p : Piece) (g : Grid) : Piece :=
  { p with position := { p.position with y := p.position.y + hardDropOffset p g } }

/-- `lockPiece`'s grid is the line-cleared stamp of the active piece at
its current anchor (both branches). -/
theorem lockPiece_grid_eq (s : GameState) (p : Piece)
    (drawn : PieceType) (hp : s.activePiece = some p) :
    (lockPiece drawn s).grid =
      clearFullRows s.grid.length (stamp p s.grid) := by
  simp only [lockPiece, hp]
  split <;> rfl

/-- `hardDrop`'s grid and score on a live state: the grid is the
line-cleared stamp of the landed piece and the score update charges
`basePoints[linesCleared] * (level + 1)` (both branches of the spawn
check). -/
theorem hardDrop_components (s : GameState) (p : Piece)
    (drawn : PieceType) (hp : s.activePiece = some p)
    (hpau : s.isPaused = false) (hgo : s.isGameOver = false) :
    (hardDrop drawn s).grid =
      clearFullRows s.grid.length (stamp (finalPiece p s.grid) s.grid) ∧
    (hardDrop drawn s).score =
      s.score +
        basePoints.getD (countFull (stamp (finalPiece p s.grid) s.grid)) 0 *
          (s.level + 1) := by
  simp only [hardDrop, hp, hpau, hgo, Bool.or_self, if_false, finalPiece]
  exact ⟨rfl, rfl⟩

/-- The line-cleared stamp of any piece `q` is: that many empty rows on
top of the non-full rows, with the row count of the original grid. -/
theorem clearStamp_char (q : Piece) (g : Grid) :
    clearFullRows g.length (stamp q g) =
      List.replicate (countFull (stamp q g)) emptyRow ++
        ((stamp q g).filter fun row => !isFull row) ∧
    (clearFullRows g.length (stamp q g)).length = g.length := by
  have hlen : (stamp q g).length = g.length := length_stamp q g
  constructor
  · rw [← hlen, clearFullRows_eq]
  · rw [← hlen, length_clearFullRows, hlen]

/-- C3: For every lock — the `lockPiece` path and the inline lock of
`hardDrop` alike — exactly the rows of the stamped field in which every
cell is non-empty are removed, that many empty rows are prepended at the
top, and the total row count is unchanged. -/
theorem lock_clears_full_rows (s : GameState) (p : Piece)
    (drawn : PieceType) :
    (s.activePiece = some p →
      (lockPiece drawn s).grid =
        List.replicate (countFull (stamp p s.grid)) emptyRow ++
          ((stamp p s.grid).filter fun row => !isFull row) ∧
      (lockPiece drawn s).grid.length = s.grid.length) ∧
    (s.activePiece = some p → s.isPaused = false → s.isGameOver = false →
      (hardDrop drawn s).grid =
        List.replicate (countFull (stamp (finalPiece p s.grid) s.grid))
            emptyRow ++
          ((stamp (finalPiece p s.grid) s.grid).filter
            fun row => !isFull row) ∧
      (hardDrop drawn s).grid.length = s.grid.length) := by
  constructor
  · intro hp
    have hgrid := lockPiece_grid_eq s p drawn hp
    obtain ⟨hchar, hlen⟩ := clearStamp_char p s.grid
    exact ⟨hgrid.trans hchar, hgrid ▸ hlen⟩
  · intro hp hpau hgo
    have hgrid := (hardDrop_components s p drawn hp hpau hgo).1
    obtain ⟨hchar, hlen⟩ := clearStamp_char (finalPiece p s.grid) s.grid
    exact ⟨hgrid.trans hchar, hgrid ▸ hlen⟩

/-- Witness for C3: an `O` piece over a partly full bottom row of a
4-row field; both lock paths keep the row count at 4. -/
theorem lock_clears_full_rows_witness :
    (Tetris.lockPiece PieceType.T
        { grid := List.replicate 3 emptyRow ++
            [List.replicate 8 (some PieceType.I) ++ [none, none]],
          activePiece := some ⟨PieceType.O, PIECES PieceType.O, ⟨8, 0⟩⟩,
          nextPieces := [PieceType.O, PieceType.I, PieceType.J],
          score := 0, level := 1, lines := 0,
          isPaused := false, isGameOver := false,
          theme := Theme.electronika,
          pieceStats := ⟨0, 0, 0, 0, 0, 0, 0⟩ }).grid.length = 4 ∧
    (Tetris.hardDrop PieceType.T
        { grid := List.replicate 3 emptyRow ++
            [List.replicate 8 (some PieceType.I) ++ [none, none]],
          activePiece := some ⟨PieceType.O, PIECES PieceType.O, ⟨8, 0⟩⟩,
          nextPieces := [PieceType.O, PieceType.I, PieceType.J],
          score := 0, level := 1, lines := 0,
          isPaused := false, isGameOver := false,
          theme := Theme.electronika,
          pieceStats := ⟨0, 0, 0, 0, 0, 0, 0⟩ }).grid.length = 4 := by
  have h := lock_clears_full_rows
    { grid := List.replicate 3 emptyRow ++
        [List.replicate 8 (some PieceType.I) ++ [none, none]],
      activePiece := some ⟨PieceType.O, PIECES PieceType.O, ⟨8, 0⟩⟩,
      nextPieces := [PieceType.O, PieceType.I, PieceType.J],
      score := 0, level := 1, lines := 0,
      isPaused := false, isGameOver := false,
      theme := Theme.electronika,
      pieceStats := ⟨0, 0, 0, 0, 0, 0, 0⟩ }
    ⟨PieceType.O, PIECES PieceType.O, ⟨8, 0⟩⟩ PieceType.T
  exact ⟨(h.1 rfl).2, (h.2 rfl rfl rfl).2⟩

/-! ## C4 — the scoring table -/

/-- The specification's fixed reward table indexed by the number of rows
cleared: `{0→0, 1→40, 2→100, 3→300, 4→1200}` (stated independently of
the source's `basePoints` array, to be compared against it). -/
def specRewardTable : Nat → Nat
  | 0 => 0
  | 1 => 40
  | 2 => 100
  | 3 => 300
  | 4 => 1200
  | _ + 5 => 0

/-- Both branches of `lockPiece` charge the same score update. -/
theorem lockPiece_score_raw (s : GameState) (p : Piece) (drawn : PieceType)
    (hp : s.activePiece = some p) :
    (lockPiece drawn s).score =
      s.score +
        basePoints.getD (countFull (stamp p s.grid)) 0 * (s.level + 1) := by
  simp only [lockPiece, hp]
  split <;> rfl

/-- The raw score charge rewritten through the spec's table for
`k ≤ 4`, with the `k = 0` no-change special case. -/
theorem score_charge_table (sc lvl k : Nat) (hk4 : k ≤ 4) :
    sc + basePoints.getD k 0 * (lvl + 1) =
      sc + specRewardTable k * (lvl + 1) ∧
    (k = 0 → sc + basePoints.getD k 0 * (lvl + 1) = sc) := by
  constructor
  · have htab : basePoints.getD k 0 = specRewardTable k := by
      interval_cases k <;> rfl
    rw [htab]
  · rintro rfl
    simp [basePoints]

/-- C4: A lock that clears `k ∈ {0,…,4}` rows — on the `lockPiece` path
or on `hardDrop`'s inline lock — increases the score by exactly the
table value at `k` times the level-dependent factor `level + 1`;
clearing 0 rows leaves the score unchanged. -/
theorem lock_score_table (s : GameState) (p : Piece)
    (drawn : PieceType) (k : Nat) :
    (s.activePiece = some p → countFull (stamp p s.grid) = k → k ≤ 4 →
      (lockPiece drawn s).score =
        s.score + specRewardTable k * (s.level + 1) ∧
      (k = 0 → (lockPiece drawn s).score = s.score)) ∧
    (s.activePiece = some p → s.isPaused = false → s.isGameOver = false →
      countFull (stamp (finalPiece p s.grid) s.grid) = k → k ≤ 4 →
      (hardDrop drawn s).score =
        s.score + specRewardTable k * (s.level + 1) ∧
      (k = 0 → (hardDrop drawn s).score = s.score)) := by
  constructor
  · intro hp hk hk4
    have hraw := lockPiece_score_raw s p drawn hp
    rw [hk] at hraw
    obtain ⟨h1, h2⟩ := score_charge_table s.score s.level k hk4
    exact ⟨hraw.trans h1, fun h0 => (hraw.trans (h2 h0))⟩
  · intro hp hpau hgo hk hk4
    have hraw := (hardDrop_components s p drawn hp hpau hgo).2
    rw [hk] at hraw
    obtain ⟨h1, h2⟩ := score_charge_table s.score s.level k hk4
    exact ⟨hraw.trans h1, fun h0 => (hraw.trans (h2 h0))⟩

/-- Witness for C4: an `O` piece resting in columns 8–9 above a bottom
row whose columns 0–7 are already filled; both lock paths clear one row
and, at level 1, add `40 × 2 = 80` points. -/
theorem lock_score_table_witness :
    (Tetris.lockPiece PieceType.T
        { grid := List.replicate 3 emptyRow ++
            [List.replicate 8 (some PieceType.I) ++ [none, none]],
          activePiece := some ⟨PieceType.O, PIECES PieceType.O, ⟨8, 2⟩⟩,
          nextPieces := [PieceType.O, PieceType.I, PieceType.J],
          score := 0, level := 1, lines := 0,
          isPaused := false, isGameOver := false,
          theme := Theme.electronika,
          pieceStats := ⟨0, 0, 0, 0, 0, 0, 0⟩ }).score = 0 + 40 * (1 + 1) ∧
    (Tetris.hardDrop PieceType.T
        { grid := List.replicate 3 emptyRow ++
            [List.replicate 8 (some PieceType.I) ++ [none, none]],
          activePiece := some ⟨PieceType.O, PIECES PieceType.O, ⟨8, 2⟩⟩,
          nextPieces := [PieceType.O, PieceType.I, PieceType.J],
          score := 0, level := 1, lines := 0,
          isPaused := false, isGameOver := false,
          theme := Theme.electronika,
          pieceStats := ⟨0, 0, 0, 0, 0, 0, 0⟩ }).score = 0 + 40 * (1 + 1) := by
  have h := lock_score_table
    { grid := List.replicate 3 emptyRow ++
        [List.replicate 8 (some PieceType.I) ++ [none, none]],
      activePiece := some ⟨PieceType.O, PIECES PieceType.O, ⟨8, 2⟩⟩,
      nextPieces := [PieceType.O, PieceType.I, PieceType.J],
      score := 0, level := 1, lines := 0,
      isPaused := false, isGameOver := false,
      theme := Theme.electronika,
      pieceStats := ⟨0, 0, 0, 0, 0, 0, 0⟩ }
    ⟨PieceType.O, PIECES PieceType.O, ⟨8, 2⟩⟩ PieceType.T 1
  exact ⟨(h.1 rfl (by decide) (by decide)).1,
    (h.2 rfl rfl rfl (by decide) (by decide)).1⟩

/-! ## C2 — hard drop lands on the last non-colliding offset and locks -/

/-- Any piece with at least one occupied cell and a non-negative anchor
row collides at every offset at or below the floor. -/
theorem checkCollision_big (p : Piece) (g : Grid) (dy : Int)
    (hy : 0 ≤ p.position.y) (hocc : ∃ y x, OccAt p.shape y x)
    (hdy : (g.length : Int) ≤ dy) : checkCollision p g 0 dy = true := by
  obtain ⟨y, x, h⟩ := hocc
  unfold checkCollision
  rw [List.any_eq_true]
  refine ⟨(y, x), mem_occPairs.2 h, ?_⟩
  unfold collTest
  simp only [Bool.or_eq_true, decide_eq_true_eq]
  exact Or.inl (Or.inr (by omega))

/-- The probing loop: provided a collision exists within the fuel, the
result is at or after the start, its successor offset collides, and no
offset strictly between the start and the result (inclusive) collides. -/
theorem dropSteps_spec (p : Piece) (g : Grid) :
    ∀ (fuel d : Nat),
      (∃ k, k ≤ fuel ∧ checkCollision p g 0 ((d : Int) + k + 1) = true) →
      d ≤ dropSteps p g d fuel ∧
      checkCollision p g 0 ((dropSteps p g d fuel : Int) + 1) = true ∧
      (∀ m : Nat, d < m → m ≤ dropSteps p g d fuel →
        checkCollision p g 0 (m : Int) = false) := by
  intro fuel
  induction fuel with
  | zero =>
    intro d hex
    obtain ⟨k, hk, hcoll⟩ := hex
    have hk0 : k = 0 := Nat.le_zero.1 hk
    subst hk0
    rw [dropSteps]
    refine ⟨le_refl d, ?_, ?_⟩
    · simpa using hcoll
    · intro m hm1 hm2
      omega
  | succ fuel ih =>
    intro d hex
    rw [dropSteps]
    split
    next hc =>
      refine ⟨le_refl d, by exact hc, ?_⟩
      intro m hm1 hm2
      omega
    next hc =>
      have hcfalse : checkCollision p g 0 ((d : Int) + 1) = false :=
        Bool.not_eq_true _ ▸ eq_false_of_ne_true hc
      obtain ⟨k, hk, hcoll⟩ := hex
      have hkpos : k ≠ 0 := by
        rintro rfl
        simp only [Nat.cast_zero, add_zero] at hcoll
        rw [hcoll] at hcfalse
        simp at hcfalse
      obtain ⟨k', rfl⟩ := Nat.exists_eq_succ_of_ne_zero hkpos
      have hex' : ∃ k, k ≤ fuel ∧
          checkCollision p g 0 (((d + 1 : Nat) : Int) + k + 1) = true := by
        refine ⟨k', by omega, ?_⟩
        have : (((d + 1 : Nat) : Int) + k' + 1) = (d : Int) + (k' + 1) + 1 := by
          push_cast; ring
        rw [this]
        exact_mod_cast hcoll
      obtain ⟨hle, hcoll', hclear⟩ := ih (d + 1) hex'
      refine ⟨by omega, hcoll', ?_⟩
      intro m hm1 hm2
      by_cases hmd : m = d + 1
      · subst hmd
        have : ((d + 1 : Nat) : Int) = (d : Int) + 1 := by push_cast; ring
        rwa [this]
      · exact hclear m (by omega) hm2

/-- The landing offset found by `hardDrop`'s loop: every offset up to it
(the probe starting at 0) is collision-free, and the next offset down
collides. -/
theorem hardDropOffset_spec (p : Piece) (g : Grid)
    (hy : 0 ≤ p.position.y) (hocc : ∃ y x, OccAt p.shape y x)
    (h0 : checkCollision p g 0 0 = false) :
    (∀ k : Nat, k ≤ hardDropOffset p g →
      checkCollision p g 0 (k : Int) = false) ∧
    checkCollision p g 0 ((hardDropOffset p g : Int) + 1) = true := by
  have hex : ∃ k, k ≤ g.length + 1 ∧
      checkCollision p g 0 ((0 : Int) + k + 1) = true := by
    refine ⟨g.length, Nat.le_succ _, ?_⟩
    exact checkCollision_big p g _ hy hocc (by omega)
  obtain ⟨hle, hcoll, hclear⟩ := dropSteps_spec p g (g.length + 1) 0 hex
  refine ⟨?_, hcoll⟩
  intro k hk
  rcases Nat.eq_zero_or_pos k with rfl | hkpos
  · exact_mod_cast h0
  · exact hclear k hkpos hk

/-- C2: For a live state (active piece, not paused, not game over) whose
piece has an occupied cell, a non-negative anchor row and a
collision-free current placement, `hardDrop` finds the landing offset
`d = hardDropOffset`: offsets `0..d` are collision-free and `d+1`
collides; the same transition locks the fallen piece (the resulting grid
is the line-cleared stamp of the piece at offset `d`); and the landing
placement has zero out-of-bounds occupied cells and zero overlap with
locked cells. -/
theorem hardDrop_lands_and_locks (s : GameState) (p : Piece)
    (drawn : PieceType) (hp : s.activePiece = some p)
    (hpau : s.isPaused = false) (hgo : s.isGameOver = false)
    (hy : 0 ≤ p.position.y) (hocc : ∃ y x, OccAt p.shape y x)
    (h0 : checkCollision p s.grid 0 0 = false) :
    (∀ k : Nat, k ≤ hardDropOffset p s.grid →
      checkCollision p s.grid 0 (k : Int) = false) ∧
    checkCollision p s.grid 0 ((hardDropOffset p s.grid : Int) + 1) = true ∧
    (hardDrop drawn s).grid =
      clearFullRows s.grid.length
        (stamp
          { p with position :=
              { p.position with y := p.position.y + hardDropOffset p s.grid } }
          s.grid) ∧
    (∀ y x, OccAt p.shape y x →
      0 ≤ p.position.x + x ∧
      p.position.x + x < (COLS : Int) ∧
      0 ≤ p.position.y + y + hardDropOffset p s.grid ∧
      p.position.y + y + hardDropOffset p s.grid < (s.grid.length : Int) ∧
      cellAt s.grid (p.position.y + y + hardDropOffset p s.grid).toNat
        (p.position.x + x).toNat = none) := by
  obtain ⟨hclear, hcoll⟩ := hardDropOffset_spec p s.grid hy hocc h0
  refine ⟨hclear, hcoll, ?_, ?_⟩
  · simp only [hardDrop, hp, hpau, hgo, Bool.or_self, Bool.false_or,
      if_false]
    rfl
  · intro y x hyx
    have hd : checkCollision p s.grid 0 (hardDropOffset p s.grid : Int)
        = false := hclear _ (le_refl _)
    rw [checkCollision, List.any_eq_false] at hd
    have htest : collTest s.grid p.position 0
        (hardDropOffset p s.grid : Int) (y, x) = false :=
      eq_false_of_ne_true (hd (y, x) (mem_occPairs.2 hyx))
    unfold collTest at htest
    simp only [Bool.or_eq_false_iff, Bool.and_eq_false_iff,
      decide_eq_false_iff_not] at htest
    obtain ⟨⟨⟨hx1, hx2⟩, hy2⟩, hlast⟩ := htest
    have h0y : 0 ≤ p.position.y + y + (hardDropOffset p s.grid : Int) := by
      omega
    have hblocked : cellBlocked s.grid
        (p.position.y + y + (hardDropOffset p s.grid : Int)).toNat
        (p.position.x + x + 0).toNat = false := by
      rcases hlast with h | h
      · exact absurd h0y (by simpa using h)
      · simpa using h
    refine ⟨by omega, by omega, h0y, by omega, ?_⟩
    have := cellAt_eq_none_of_not_blocked hblocked
    rwa [show p.position.x + x + 0 = p.position.x + x by ring] at this

/-- Witness for C2: the `O` piece at `(8, 0)` above a bottom row filled
in columns 0–7 on a 4-row field lands at offset 2 and collides at 3. -/
theorem hardDrop_lands_and_locks_witness :
    checkCollision ⟨PieceType.O, PIECES PieceType.O, ⟨8, 0⟩⟩
        (List.replicate 3 emptyRow ++
          [List.replicate 8 (some PieceType.I) ++ [none, none]]) 0
        ((hardDropOffset ⟨PieceType.O, PIECES PieceType.O, ⟨8, 0⟩⟩
            (List.replicate 3 emptyRow ++
              [List.replicate 8 (some PieceType.I) ++ [none, none]]) : Int)
          + 1) = true :=
  (hardDrop_lands_and_locks
    { grid := List.replicate 3 emptyRow ++
        [List.replicate 8 (some PieceType.I) ++ [none, none]],
      activePiece := some ⟨PieceType.O, PIECES PieceType.O, ⟨8, 0⟩⟩,
      nextPieces := [PieceType.O, PieceType.I, PieceType.J],
      score := 0, level := 1, lines := 0,
      isPaused := false, isGameOver := false,
      theme := Theme.electronika,
      pieceStats := ⟨0, 0, 0, 0, 0, 0, 0⟩ }
    ⟨PieceType.O, PIECES PieceType.O, ⟨8, 0⟩⟩ PieceType.T rfl rfl rfl
    (by decide) ⟨0, 0, by decide⟩ (by decide)).2.1

/-! ## C5 — the lookahead queue -/

/-- One engine transition: a dispatched key, a gravity tick, or the
initial spawn effect, with all random draws injected. -/
inductive Step : GameState → GameState → Prop where
  | key (s : GameState) (theme : Theme) (isMobile : Bool)
      (drawn a b c : PieceType) (k : Key) :
      Step s (handleKey theme isMobile drawn a b c k s)
  | tick (s : GameState) (drawn : PieceType) : Step s (drop drawn s)
  | spawn (s : GameState) (drawn : PieceType) : Step s (spawnPiece drawn s)

/-- States reachable from some initial state through engine transitions. -/
inductive Reachable : GameState → Prop where
  | init (theme : Theme) (isMobile : Bool) (a b c : PieceType) :
      Reachable (initialState theme isMobile a b c)
  | step {s s' : GameState} : Reachable s → Step s s' → Reachable s'

theorem len_nextPieces_lockPiece (drawn : PieceType) (s : GameState)
    (h : 3 ≤ s.nextPieces.length) :
    3 ≤ (lockPiece drawn s).nextPieces.length := by
  cases hap : s.activePiece with
  | none => simpa [lockPiece, hap] using h
  | some p =>
    simp only [lockPiece, hap]
    split
    · simp only [List.length_append, List.length_tail, List.length_cons,
        List.length_nil]
      omega
    · simp only [List.length_append, List.length_tail, List.length_cons,
        List.length_nil]
      omega

theorem len_nextPieces_hardDrop (drawn : PieceType) (s : GameState)
    (h : 3 ≤ s.nextPieces.length) :
    3 ≤ (hardDrop drawn s).nextPieces.length := by
  cases hap : s.activePiece with
  | none => simpa [hardDrop, hap] using h
  | some p =>
    simp only [hardDrop, hap]
    split
    · exact h
    · split
      · exact h
      · simp only [List.length_append, List.length_tail, List.length_cons,
          List.length_nil]
        omega

theorem len_nextPieces_spawnPiece (drawn : PieceType) (s : GameState)
    (h : 3 ≤ s.nextPieces.length) :
    3 ≤ (spawnPiece drawn s).nextPieces.length := by
  simp only [spawnPiece]
  split
  · exact h
  · simp only [List.length_append, List.length_tail, List.length_cons,
      List.length_nil]
    omega

theorem len_nextPieces_drop (drawn : PieceType) (s : GameState)
    (h : 3 ≤ s.nextPieces.length) :
    3 ≤ (drop drawn s).nextPieces.length := by
  cases hap : s.activePiece with
  | none => simpa [drop, hap] using h
  | some p =>
    simp only [drop, hap]
    split
    · exact h
    · split
      · exact h
      · exact len_nextPieces_lockPiece drawn s h

theorem len_nextPieces_move (dir : Int) (s : GameState)
    (h : 3 ≤ s.nextPieces.length) :
    3 ≤ (move dir s).nextPieces.length := by
  cases hap : s.activePiece with
  | none => simpa [move, hap] using h
  | some p =>
    simp only [move, hap]
    split
    · exact h
    · split
      · exact h
      · exact h

theorem len_nextPieces_handleRotate (s : GameState)
    (h : 3 ≤ s.nextPieces.length) :
    3 ≤ (handleRotate s).nextPieces.length := by
  cases hap : s.activePiece with
  | none => simpa [handleRotate, hap] using h
  | some p =>
    simp only [handleRotate, hap]
    split
    · exact h
    · split
      · exact h
      · exact h

theorem len_nextPieces_handleKey (theme : Theme) (isMobile : Bool)
    (drawn a b c : PieceType) (k : Key) (s : GameState)
    (h : 3 ≤ s.nextPieces.length) :
    3 ≤ (handleKey theme isMobile drawn a b c k s).nextPieces.length := by
  unfold handleKey
  split
  · exact h
  · cases k with
    | left => exact len_nextPieces_move (-1) s h
    | right => exact len_nextPieces_move 1 s h
    | down => exact len_nextPieces_drop drawn s h
    | rotateCW => exact len_nextPieces_handleRotate s h
    | space => exact len_nextPieces_hardDrop drawn s h
    | keyP => exact h
    | keyR => simp [restartGame, initialState]

/-- C5: In every reachable state the upcoming-piece queue has length at
least 3, and every successful spawn — the one folded into `lockPiece`,
the one folded into `hardDrop`, and the standalone `spawnPiece` —
consumes exactly the queue's head (spawned at row 0, horizontally
centered using its own shape's width) while pushing exactly the one
fresh draw to the tail. -/
theorem queue_invariant_and_spawn (s : GameState) (hreach : Reachable s) :
    3 ≤ s.nextPieces.length ∧
    (∀ (drawn : PieceType) (p : Piece), s.activePiece = some p →
      (lockPiece drawn s).isGameOver = false →
      (lockPiece drawn s).activePiece =
        some ⟨s.nextPieces.headD PieceType.I,
          PIECES (s.nextPieces.headD PieceType.I),
          ⟨(COLS : Int) / 2 -
            (((PIECES (s.nextPieces.headD PieceType.I)).headD []).length : Int)
              / 2, 0⟩⟩ ∧
      (lockPiece drawn s).nextPieces = s.nextPieces.tail ++ [drawn]) ∧
    (∀ (drawn : PieceType) (p : Piece), s.activePiece = some p →
      s.isPaused = false → s.isGameOver = false →
      (hardDrop drawn s).isGameOver = false →
      (hardDrop drawn s).activePiece =
        some ⟨s.nextPieces.headD PieceType.I,
          PIECES (s.nextPieces.headD PieceType.I),
          ⟨(COLS : Int) / 2 -
            (((PIECES (s.nextPieces.headD PieceType.I)).headD []).length : Int)
              / 2, 0⟩⟩ ∧
      (hardDrop drawn s).nextPieces = s.nextPieces.tail ++ [drawn]) ∧
    (∀ drawn : PieceType,
      (spawnPiece drawn s).isGameOver = false →
      (spawnPiece drawn s).activePiece =
        some ⟨s.nextPieces.headD PieceType.I,
          PIECES (s.nextPieces.headD PieceType.I),
          ⟨(COLS : Int) / 2 -
            (((PIECES (s.nextPieces.headD PieceType.I)).headD []).length : Int)
              / 2, 0⟩⟩ ∧
      (spawnPiece drawn s).nextPieces = s.nextPieces.tail ++ [drawn]) := by
  refine ⟨?_, ?_, ?_, ?_⟩
  · induction hreach with
    | init theme isMobile a b c => simp [initialState]
    | step hprev hstep ih =>
      cases hstep with
      | key theme isMobile drawn a b c k =>
        exact len_nextPieces_handleKey theme isMobile drawn a b c k _ ih
      | tick drawn => exact len_nextPieces_drop drawn _ ih
      | spawn drawn => exact len_nextPieces_spawnPiece drawn _ ih
  · intro drawn p hp hng
    simp only [lockPiece, hp] at hng ⊢
    by_cases hcol : checkCollision (mkSpawn (s.nextPieces.headD PieceType.I))
        (clearFullRows s.grid.length (stamp p s.grid)) 0 0 = true
    · rw [if_pos hcol] at hng
      simp at hng
    · rw [if_neg hcol]
      exact ⟨rfl, rfl⟩
  · intro drawn p hp hpau hgo hng
    simp only [hardDrop, hp, hpau, hgo, Bool.or_self, Bool.false_eq_true,
      if_false, Bool.or_false] at hng ⊢
    rw [hng]
    simp only [Bool.false_eq_true, if_false]
    exact ⟨rfl, trivial⟩
  · intro drawn hng
    simp only [spawnPiece] at hng ⊢
    by_cases hcol : checkCollision (mkSpawn (s.nextPieces.headD PieceType.I))
        s.grid 0 0 = true
    · rw [if_pos hcol] at hng
      simp at hng
    · rw [if_neg hcol]
      exact ⟨rfl, rfl⟩

/-- Witness for C5: a reachable state with an active `O` piece two rows
into its fall (initial spawn followed by two gravity ticks); all three
spawn sites rotate the queue `[I, J, L]` into `[J, L, T]`. -/
theorem queue_invariant_and_spawn_witness :
    3 ≤ (drop PieceType.L (drop PieceType.L (spawnPiece PieceType.L
        (initialState Theme.electronika false PieceType.O PieceType.I
          PieceType.J)))).nextPieces.length ∧
    (lockPiece PieceType.T
        (drop PieceType.L (drop PieceType.L (spawnPiece PieceType.L
          (initialState Theme.electronika false PieceType.O PieceType.I
            PieceType.J))))).nextPieces =
      (drop PieceType.L (drop PieceType.L (spawnPiece PieceType.L
        (initialState Theme.electronika false PieceType.O PieceType.I
          PieceType.J)))).nextPieces.tail ++ [PieceType.T] ∧
    (hardDrop PieceType.T
        (drop PieceType.L (drop PieceType.L (spawnPiece PieceType.L
          (initialState Theme.electronika false PieceType.O PieceType.I
            PieceType.J))))).nextPieces =
      (drop PieceType.L (drop PieceType.L (spawnPiece PieceType.L
        (initialState Theme.electronika false PieceType.O PieceType.I
          PieceType.J)))).nextPieces.tail ++ [PieceType.T] ∧
    (spawnPiece PieceType.T
        (drop PieceType.L (drop PieceType.L (spawnPiece PieceType.L
          (initialState Theme.electronika false PieceType.O PieceType.I
            PieceType.J))))).nextPieces =
      (drop PieceType.L (drop PieceType.L (spawnPiece PieceType.L
        (initialState Theme.electronika false PieceType.O PieceType.I
          PieceType.J)))).nextPieces.tail ++ [PieceType.T] := by
  have h0 : Reachable (initialState Theme.electronika false PieceType.O
      PieceType.I PieceType.J) :=
    Reachable.init Theme.electronika false PieceType.O PieceType.I
      PieceType.J
  have h1 := h0.step (Step.spawn _ PieceType.L)
  have h2 := h1.step (Step.tick _ PieceType.L)
  have h3 := h2.step (Step.tick _ PieceType.L)
  obtain ⟨hlen, hlock, hhard, hspawn⟩ := queue_invariant_and_spawn _ h3
  exact ⟨hlen,
    (hlock PieceType.T ⟨PieceType.O, PIECES PieceType.O, ⟨4, 2⟩⟩
      (by decide) (by decide)).2,
    (hhard PieceType.T ⟨PieceType.O, PIECES PieceType.O, ⟨4, 2⟩⟩
      (by decide) (by decide) (by decide) (by decide)).2,
    (hspawn PieceType.T (by decide)).2⟩

/-! ## C6 — the tally on a game-ending lock

`lockPiece` computes the incremented tally but its game-over return
branch omits the `pieceStats` field, while `hardDrop`'s lock includes it
in every branch; the two lock paths therefore disagree on a game-ending
lock. -/

/-- C6 (failing input): a 2-row field with the active `O` at `(4, 0)` and
the queue head also `O`.  Locking via `lockPiece` ends the game and
leaves the per-kind tally at zero, while the identical placement via
`hardDrop` ends the game with the `O` tally incremented to one. -/
theorem lockPiece_gameOver_keeps_tally :
    (lockPiece PieceType.T
        { grid := List.replicate 2 emptyRow,
          activePiece := some ⟨PieceType.O, PIECES PieceType.O, ⟨4, 0⟩⟩,
          nextPieces := [PieceType.O, PieceType.I, PieceType.J],
          score := 0, level := 1, lines := 0,
          isPaused := false, isGameOver := false,
          theme := Theme.electronika,
          pieceStats := ⟨0, 0, 0, 0, 0, 0, 0⟩ }).isGameOver = true ∧
    (lockPiece PieceType.T
        { grid := List.replicate 2 emptyRow,
          activePiece := some ⟨PieceType.O, PIECES PieceType.O, ⟨4, 0⟩⟩,
          nextPieces := [PieceType.O, PieceType.I, PieceType.J],
          score := 0, level := 1, lines := 0,
          isPaused := false, isGameOver := false,
          theme := Theme.electronika,
          pieceStats := ⟨0, 0, 0, 0, 0, 0, 0⟩ }).pieceStats.get PieceType.O
      = 0 ∧
    (hardDrop PieceType.T
        { grid := List.replicate 2 emptyRow,
          activePiece := some ⟨PieceType.O, PIECES PieceType.O, ⟨4, 0⟩⟩,
          nextPieces := [PieceType.O, PieceType.I, PieceType.J],
          score := 0, level := 1, lines := 0,
          isPaused := false, isGameOver := false,
          theme := Theme.electronika,
          pieceStats := ⟨0, 0, 0, 0, 0, 0, 0⟩ }).isGameOver = true ∧
    (hardDrop PieceType.T
        { grid := List.replicate 2 emptyRow,
          activePiece := some ⟨PieceType.O, PIECES PieceType.O, ⟨4, 0⟩⟩,
          nextPieces := [PieceType.O, PieceType.I, PieceType.J],
          score := 0, level := 1, lines := 0,
          isPaused := false, isGameOver := false,
          theme := Theme.electronika,
          pieceStats := ⟨0, 0, 0, 0, 0, 0, 0⟩ }).pieceStats.get PieceType.O
      = 1 := by
  decide

/-! ## C7 — pause/restart while game over -/

/-- C7 (counterexample): in a game-over state, the keyboard handler drops
`'p'` and `'r'` entirely, although performing either transition would
have changed the state. -/
theorem handleKey_gameOver_ignores_pause_restart :
    (handleKey Theme.electronika false PieceType.I PieceType.I PieceType.I
        PieceType.I Key.keyP
        { grid := List.replicate 2 emptyRow,
          activePiece := none,
          nextPieces := [PieceType.O, PieceType.I, PieceType.J],
          score := 5, level := 1, lines := 0,
          isPaused := false, isGameOver := true,
          theme := Theme.electronika,
          pieceStats := ⟨0, 0, 0, 0, 0, 0, 0⟩ } =
      { grid := List.replicate 2 emptyRow,
        activePiece := none,
        nextPieces := [PieceType.O, PieceType.I, PieceType.J],
        score := 5, level := 1, lines := 0,
        isPaused := false, isGameOver := true,
        theme := Theme.electronika,
        pieceStats := ⟨0, 0, 0, 0, 0, 0, 0⟩ }) ∧
    togglePause
        { grid := List.replicate 2 emptyRow,
          activePiece := none,
          nextPieces := [PieceType.O, PieceType.I, PieceType.J],
          score := 5, level := 1, lines := 0,
          isPaused := false, isGameOver := true,
          theme := Theme.electronika,
          pieceStats := ⟨0, 0, 0, 0, 0, 0, 0⟩ } ≠
      { grid := List.replicate 2 emptyRow,
        activePiece := none,
        nextPieces := [PieceType.O, PieceType.I, PieceType.J],
        score := 5, level := 1, lines := 0,
        isPaused := false, isGameOver := true,
        theme := Theme.electronika,
        pieceStats := ⟨0, 0, 0, 0, 0, 0, 0⟩ } ∧
    (handleKey Theme.electronika false PieceType.I PieceType.I PieceType.I
        PieceType.I Key.keyR
        { grid := List.replicate 2 emptyRow,
          activePiece := none,
          nextPieces := [PieceType.O, PieceType.I, PieceType.J],
          score := 5, level := 1, lines := 0,
          isPaused := false, isGameOver := true,
          theme := Theme.electronika,
          pieceStats := ⟨0, 0, 0, 0, 0, 0, 0⟩ } =
      { grid := List.replicate 2 emptyRow,
        activePiece := none,
        nextPieces := [PieceType.O, PieceType.I, PieceType.J],
        score := 5, level := 1, lines := 0,
        isPaused := false, isGameOver := true,
        theme := Theme.electronika,
        pieceStats := ⟨0, 0, 0, 0, 0, 0, 0⟩ }) ∧
    restartGame Theme.electronika false PieceType.I PieceType.I PieceType.I
        { grid := List.replicate 2 emptyRow,
          activePiece := none,
          nextPieces := [PieceType.O, PieceType.I, PieceType.J],
          score := 5, level := 1, lines := 0,
          isPaused := false, isGameOver := true,
          theme := Theme.electronika,
          pieceStats := ⟨0, 0, 0, 0, 0, 0, 0⟩ } ≠
      { grid := List.replicate 2 emptyRow,
        activePiece := none,
        nextPieces := [PieceType.O, PieceType.I, PieceType.J],
        score := 5, level := 1, lines := 0,
        isPaused := false, isGameOver := true,
        theme := Theme.electronika,
        pieceStats := ⟨0, 0, 0, 0, 0, 0, 0⟩ } := by
  refine ⟨rfl, ?_, rfl, ?_⟩ <;> decide

/-- C7 (amended): `togglePause` and `restart` are accepted in every
state that is not game over — in particular while paused — whereas in a
game-over state the keyboard handler ignores every key. -/
theorem handleKey_pause_restart_accepted (theme : Theme) (isMobile : Bool)
    (drawn a b c : PieceType) (s : GameState)
    (h : s.isGameOver = false) :
    handleKey theme isMobile drawn a b c Key.keyP s = togglePause s ∧
    (handleKey theme isMobile drawn a b c Key.keyP s).isPaused =
      !s.isPaused ∧
    handleKey theme isMobile drawn a b c Key.keyR s =
      initialState theme isMobile a b c := by
  refine ⟨?_, ?_, ?_⟩ <;> simp [handleKey, h, togglePause, restartGame]

/-- Witness for the amended C7: in a paused (not game-over) state, `'p'`
toggles the pause flag back off and `'r'` restarts. -/
theorem handleKey_pause_restart_accepted_witness :
    (handleKey Theme.electronika false PieceType.I PieceType.I PieceType.I
        PieceType.I Key.keyP
        { grid := List.replicate 2 emptyRow,
          activePiece := none,
          nextPieces := [PieceType.O, PieceType.I, PieceType.J],
          score := 5, level := 1, lines := 0,
          isPaused := true, isGameOver := false,
          theme := Theme.electronika,
          pieceStats := ⟨0, 0, 0, 0, 0, 0, 0⟩ }).isPaused = false :=
  (handleKey_pause_restart_accepted Theme.electronika false PieceType.I
    PieceType.I PieceType.I PieceType.I
    { grid := List.replicate 2 emptyRow,
      activePiece := none,
      nextPieces := [PieceType.O, PieceType.I, PieceType.J],
      score := 5, level := 1, lines := 0,
      isPaused := true, isGameOver := false,
      theme := Theme.electronika,
      pieceStats := ⟨0, 0, 0, 0, 0, 0, 0⟩ } rfl).2.1

/-! ## C8 — invalid actions are silent no-ops -/

/-- C8: A horizontal move into a wall or the stack, a rotation whose
rotated shape collides at the unchanged anchor, and any
movement/rotation/drop while paused or game over, all return the state
unchanged (and, being total functions, never throw). -/
theorem invalid_action_noop (s : GameState) (dir : Int)
    (drawn : PieceType) (p : Piece) :
    (s.activePiece = some p → checkCollision p s.grid dir 0 = true →
      move dir s = s) ∧
    (s.activePiece = some p →
      checkCollision { p with shape := rotateShape p.shape } s.grid 0 0 =
        true →
      handleRotate s = s) ∧
    (s.isPaused = true ∨ s.isGameOver = true →
      move dir s = s ∧ handleRotate s = s ∧ drop drawn s = s ∧
        hardDrop drawn s = s) := by
  refine ⟨fun hp hcol => ?_, fun hp hcol => ?_, fun h => ?_⟩
  · simp [move, hp, hcol]
  · simp [handleRotate, hp, hcol]
  · cases hap : s.activePiece with
    | none => simp [move, handleRotate, drop, hardDrop, hap]
    | some q =>
      rcases h with h | h <;>
        simp [move, handleRotate, drop, hardDrop, hap, h]

/-- Witness for C8: a paused 2-row state whose `I` piece sits against the
left wall and cannot rotate either; every invalid action is an identity. -/
theorem invalid_action_noop_witness :
    move (-1)
        { grid := List.replicate 2 emptyRow,
          activePiece := some ⟨PieceType.I, PIECES PieceType.I, ⟨0, 0⟩⟩,
          nextPieces := [PieceType.O, PieceType.I, PieceType.J],
          score := 0, level := 1, lines := 0,
          isPaused := true, isGameOver := false,
          theme := Theme.electronika,
          pieceStats := ⟨0, 0, 0, 0, 0, 0, 0⟩ } =
      { grid := List.replicate 2 emptyRow,
        activePiece := some ⟨PieceType.I, PIECES PieceType.I, ⟨0, 0⟩⟩,
        nextPieces := [PieceType.O, PieceType.I, PieceType.J],
        score := 0, level := 1, lines := 0,
        isPaused := true, isGameOver := false,
        theme := Theme.electronika,
        pieceStats := ⟨0, 0, 0, 0, 0, 0, 0⟩ } ∧
    handleRotate
        { grid := List.replicate 2 emptyRow,
          activePiece := some ⟨PieceType.I, PIECES PieceType.I, ⟨0, 0⟩⟩,
          nextPieces := [PieceType.O, PieceType.I, PieceType.J],
          score := 0, level := 1, lines := 0,
          isPaused := true, isGameOver := false,
          theme := Theme.electronika,
          pieceStats := ⟨0, 0, 0, 0, 0, 0, 0⟩ } =
      { grid := List.replicate 2 emptyRow,
        activePiece := some ⟨PieceType.I, PIECES PieceType.I, ⟨0, 0⟩⟩,
        nextPieces := [PieceType.O, PieceType.I, PieceType.J],
        score := 0, level := 1, lines := 0,
        isPaused := true, isGameOver := false,
        theme := Theme.electronika,
        pieceStats := ⟨0, 0, 0, 0, 0, 0, 0⟩ } ∧
    drop PieceType.I
        { grid := List.replicate 2 emptyRow,
          activePiece := some ⟨PieceType.I, PIECES PieceType.I, ⟨0, 0⟩⟩,
          nextPieces := [PieceType.O, PieceType.I, PieceType.J],
          score := 0, level := 1, lines := 0,
          isPaused := true, isGameOver := false,
          theme := Theme.electronika,
          pieceStats := ⟨0, 0, 0, 0, 0, 0, 0⟩ } =
      { grid := List.replicate 2 emptyRow,
        activePiece := some ⟨PieceType.I, PIECES PieceType.I, ⟨0, 0⟩⟩,
        nextPieces := [PieceType.O, PieceType.I, PieceType.J],
        score := 0, level := 1, lines := 0,
        isPaused := true, isGameOver := false,
        theme := Theme.electronika,
        pieceStats := ⟨0, 0, 0, 0, 0, 0, 0⟩ } ∧
    hardDrop PieceType.I
        { grid := List.replicate 2 emptyRow,
          activePiece := some ⟨PieceType.I, PIECES PieceType.I, ⟨0, 0⟩⟩,
          nextPieces := [PieceType.O, PieceType.I, PieceType.J],
          score := 0, level := 1, lines := 0,
          isPaused := true, isGameOver := false,
          theme := Theme.electronika,
          pieceStats := ⟨0, 0, 0, 0, 0, 0, 0⟩ } =
      { grid := List.replicate 2 emptyRow,
        activePiece := some ⟨PieceType.I, PIECES PieceType.I, ⟨0, 0⟩⟩,
        nextPieces := [PieceType.O, PieceType.I, PieceType.J],
        score := 0, level := 1, lines := 0,
        isPaused := true, isGameOver := false,
        theme := Theme.electronika,
        pieceStats := ⟨0, 0, 0, 0, 0, 0, 0⟩ } := by
  obtain ⟨h1, h2, h3⟩ := invalid_action_noop
    { grid := List.replicate 2 emptyRow,
      activePiece := some ⟨PieceType.I, PIECES PieceType.I, ⟨0, 0⟩⟩,
      nextPieces := [PieceType.O, PieceType.I, PieceType.J],
      score := 0, level := 1, lines := 0,
      isPaused := true, isGameOver := false,
      theme := Theme.electronika,
      pieceStats := ⟨0, 0, 0, 0, 0, 0, 0⟩ } (-1) PieceType.I
    ⟨PieceType.I, PIECES PieceType.I, ⟨0, 0⟩⟩
  exact ⟨h1 rfl (by decide), h2 rfl (by decide),
    (h3 (Or.inl rfl)).2.2.1, (h3 (Or.inl rfl)).2.2.2⟩

/-! ## C10 — field dimensions are invariant, stamping clips both axes -/

theorem rows_writeCell (ty : PieceType) (g : Grid) (gy gx : Int)
    (hw : ∀ row ∈ g, row.length = COLS) :
    ∀ row ∈ writeCell ty g gy gx, row.length = COLS := by
  intro row hrow
  unfold writeCell at hrow
  split at hrow
  next hcond =>
    rcases List.mem_or_eq_of_mem_set hrow with h | h
    · exact hw _ h
    · subst h
      rw [List.length_set]
      obtain ⟨h1, h2, -, -⟩ := hcond
      have hlt : gy.toNat < g.length := by omega
      rw [List.getD_eq_getElem g [] hlt]
      exact hw _ (g.getElem_mem hlt)
  next => exact hw _ hrow

theorem rows_stampCells (ty : PieceType) :
    ∀ (coords : List (Int × Int)) (g : Grid),
      (∀ row ∈ g, row.length = COLS) →
      ∀ row ∈ stampCells ty g coords, row.length = COLS := by
  intro coords
  induction coords with
  | nil => intro g hw; exact hw
  | cons hd tl ih =>
    intro g hw
    obtain ⟨gy, gx⟩ := hd
    rw [stampCells]
    exact ih _ (rows_writeCell ty g gy gx hw)

theorem rows_stamp (p : Piece) (g : Grid)
    (hw : ∀ row ∈ g, row.length = COLS) :
    ∀ row ∈ stamp p g, row.length = COLS :=
  rows_stampCells p.type _ g hw

theorem rows_clearFullRows (g : Grid)
    (hw : ∀ row ∈ g, row.length = COLS) :
    ∀ row ∈ clearFullRows g.length g, row.length = COLS := by
  rw [clearFullRows_eq]
  intro row hrow
  rcases List.mem_append.1 hrow with h | h
  · rw [List.eq_of_mem_replicate h]
    simp [emptyRow]
  · exact hw _ (List.mem_filter.1 h).1

/-- The line-cleared stamp of a piece keeps both the row count and every
row's width. -/
theorem clearStamp_dims (p : Piece) (g : Grid)
    (hw : ∀ row ∈ g, row.length = COLS) :
    (clearFullRows g.length (stamp p g)).length = g.length ∧
    ∀ row ∈ clearFullRows g.length (stamp p g), row.length = COLS := by
  have hlen := length_stamp p g
  constructor
  · rw [← hlen, length_clearFullRows, hlen]
  · rw [← hlen]
    exact rows_clearFullRows _ (rows_stamp p g hw)

theorem move_grid (dir : Int) (s : GameState) :
    (move dir s).grid = s.grid := by
  cases hap : s.activePiece with
  | none => simp [move, hap]
  | some p =>
    simp only [move, hap]
    split
    · rfl
    · split <;> rfl

theorem handleRotate_grid (s : GameState) :
    (handleRotate s).grid = s.grid := by
  cases hap : s.activePiece with
  | none => simp [handleRotate, hap]
  | some p =>
    simp only [handleRotate, hap]
    split
    · rfl
    · split <;> rfl

theorem lockPiece_grid_dims (drawn : PieceType) (s : GameState)
    (hw : ∀ row ∈ s.grid, row.length = COLS) :
    (lockPiece drawn s).grid.length = s.grid.length ∧
    ∀ row ∈ (lockPiece drawn s).grid, row.length = COLS := by
  cases hap : s.activePiece with
  | none =>
    have hg : (lockPiece drawn s).grid = s.grid := by simp [lockPiece, hap]
    rw [hg]
    exact ⟨rfl, hw⟩
  | some p =>
    have hgrid : (lockPiece drawn s).grid =
        clearFullRows s.grid.length (stamp p s.grid) := by
      simp only [lockPiece, hap]
      split <;> rfl
    rw [hgrid]
    exact clearStamp_dims p s.grid hw

theorem hardDrop_grid_dims (drawn : PieceType) (s : GameState)
    (hw : ∀ row ∈ s.grid, row.length = COLS) :
    (hardDrop drawn s).grid.length = s.grid.length ∧
    ∀ row ∈ (hardDrop drawn s).grid, row.length = COLS := by
  cases hap : s.activePiece with
  | none =>
    have hg : (hardDrop drawn s).grid = s.grid := by simp [hardDrop, hap]
    rw [hg]
    exact ⟨rfl, hw⟩
  | some p =>
    simp only [hardDrop, hap]
    split
    · exact ⟨rfl, hw⟩
    · exact clearStamp_dims _ s.grid hw

theorem drop_grid_dims (drawn : PieceType) (s : GameState)
    (hw : ∀ row ∈ s.grid, row.length = COLS) :
    (drop drawn s).grid.length = s.grid.length ∧
    ∀ row ∈ (drop drawn s).grid, row.length = COLS := by
  cases hap : s.activePiece with
  | none =>
    have hg : (drop drawn s).grid = s.grid := by simp [drop, hap]
    rw [hg]
    exact ⟨rfl, hw⟩
  | some p =>
    simp only [drop, hap]
    split
    · exact ⟨rfl, hw⟩
    · split
      · exact ⟨rfl, hw⟩
      · exact lockPiece_grid_dims drawn s hw

/-- Out-of-range writes — row *or column* — are dropped: stamping a
coordinate list equals stamping only its in-bounds sublist. -/
theorem stampCells_inBounds (ty : PieceType) :
    ∀ (coords : List (Int × Int)) (g : Grid),
      stampCells ty g coords =
        stampCells ty g (coords.filter fun yx =>
          decide (0 ≤ yx.1 ∧ yx.1 < (g.length : Int) ∧
            0 ≤ yx.2 ∧ yx.2 < (COLS : Int))) := by
  intro coords
  induction coords with
  | nil => intro g; rfl
  | cons hd tl ih =>
    intro g
    obtain ⟨gy, gx⟩ := hd
    by_cases hin : 0 ≤ gy ∧ gy < (g.length : Int) ∧
        0 ≤ gx ∧ gx < (COLS : Int)
    · rw [List.filter_cons, if_pos (by simpa using hin)]
      rw [stampCells, stampCells]
      have ih' := ih (writeCell ty g gy gx)
      simp only [length_writeCell] at ih'
      exact ih'
    · rw [List.filter_cons, if_neg (by simpa using hin)]
      rw [stampCells]
      have hwg : writeCell ty g gy gx = g := by
        unfold writeCell
        rw [if_neg hin]
      rw [hwg]
      exact ih g

/-- C10: every engine operation preserves the field's dimensions — the
row count stays what the grid was created with and every row keeps
exactly `COLS` cells — and cell-stamping drops writes with an
out-of-range column exactly like writes with an out-of-range row. -/
theorem ops_preserve_dims (s : GameState) (dir : Int) (drawn : PieceType)
    (hw : ∀ row ∈ s.grid, row.length = COLS) :
    ((move dir s).grid.length = s.grid.length ∧
      ∀ row ∈ (move dir s).grid, row.length = COLS) ∧
    ((handleRotate s).grid.length = s.grid.length ∧
      ∀ row ∈ (handleRotate s).grid, row.length = COLS) ∧
    ((togglePause s).grid.length = s.grid.length ∧
      ∀ row ∈ (togglePause s).grid, row.length = COLS) ∧
    ((drop drawn s).grid.length = s.grid.length ∧
      ∀ row ∈ (drop drawn s).grid, row.length = COLS) ∧
    ((lockPiece drawn s).grid.length = s.grid.length ∧
      ∀ row ∈ (lockPiece drawn s).grid, row.length = COLS) ∧
    ((hardDrop drawn s).grid.length = s.grid.length ∧
      ∀ row ∈ (hardDrop drawn s).grid, row.length = COLS) ∧
    (∀ (ty : PieceType) (g : Grid) (coords : List (Int × Int)),
      stampCells ty g coords =
        stampCells ty g (coords.filter fun yx =>
          decide (0 ≤ yx.1 ∧ yx.1 < (g.length : Int) ∧
            0 ≤ yx.2 ∧ yx.2 < (COLS : Int)))) := by
  refine ⟨?_, ?_, ⟨rfl, hw⟩, drop_grid_dims drawn s hw,
    lockPiece_grid_dims drawn s hw, hardDrop_grid_dims drawn s hw,
    fun ty g coords => stampCells_inBounds ty coords g⟩
  · rw [move_grid]
    exact ⟨rfl, hw⟩
  · rw [handleRotate_grid]
    exact ⟨rfl, hw⟩

/-- Witness for C10: after hard-dropping on a concrete 4-row field the
grid still has 4 rows. -/
theorem ops_preserve_dims_witness :
    (hardDrop PieceType.T
        { grid := List.replicate 3 emptyRow ++
            [List.replicate 8 (some PieceType.I) ++ [none, none]],
          activePiece := some ⟨PieceType.O, PIECES PieceType.O, ⟨8, 0⟩⟩,
          nextPieces := [PieceType.O, PieceType.I, PieceType.J],
          score := 0, level := 1, lines := 0,
          isPaused := false, isGameOver := false,
          theme := Theme.electronika,
          pieceStats := ⟨0, 0, 0, 0, 0, 0, 0⟩ }).grid.length =
      (List.replicate 3 emptyRow ++
        [List.replicate 8 (some PieceType.I) ++ [none, none]] :
          Grid).length :=
  (ops_preserve_dims
    { grid := List.replicate 3 emptyRow ++
        [List.replicate 8 (some PieceType.I) ++ [none, none]],
      activePiece := some ⟨PieceType.O, PIECES PieceType.O, ⟨8, 0⟩⟩,
      nextPieces := [PieceType.O, PieceType.I, PieceType.J],
      score := 0, level := 1, lines := 0,
      isPaused := false, isGameOver := false,
      theme := Theme.electronika,
      pieceStats := ⟨0, 0, 0, 0, 0, 0, 0⟩ } 1 PieceType.T
    (by decide)).2.2.2.2.2.1.1

end Tetris
